import Mathlib

/-!
Verification of the cascading, partial-failure-tolerant batch delete engine
of the `tkn task delete` command (pkg/cmd/task/delete.go), as a shallow
embedding in Lean.

Modelling conventions:
* Go errors are modelled as `String` (the message the error renders to).
* The remote store (the generated Tekton clientset reached through
  `p.Clients()`) is modelled as an `Env` of pure functions: for each kind
  of RPC the outcome the store would give for a given argument.  The
  embedding records every RPC it issues in a `calls` trace so that claims
  about which calls happen (and in which order) can be stated.
* `fmt.Fprintf(s.Err, "%s\n", err)` / `fmt.Fprintf(s.Out, ...)` become
  appends to the `errLines` / `outLines` fields of the result.
* `fmt.Errorf("failed to delete task %q: %s", tName, err)` is modelled by
  plain double-quoting of the name (exact for names that need no escaping,
  which is what Kubernetes resource names are).
* `multierr.Combine(errs...)` over a slice of non-nil errors is nil iff the
  slice is empty; the returned value is modelled by `RetErr.combined` over
  the ordered list of accumulated error messages.
-/

namespace TknTaskDelete

/-- One RPC issued against the remote store by `deleteTask`:
a `Tasks(ns).Delete`, a `TaskRuns(ns).List` or a `TaskRuns(ns).Delete`. -/
inductive StoreCall where
  | deleteTask (name : String)
  | listTaskRuns (labelSelector : String)
  | deleteTaskRun (name : String)
deriving DecidableEq, Repr

/-- The external collaborators of `deleteTask`: `p.Clients()` and the three
store operations it uses.  Each function gives the outcome the store would
return for that argument (`none` = the delete succeeded, `some e` = it
failed with error message `e`; the List call returns the `.Name` fields of
the items, or an error message). -/
structure Env where
  clients : Except String Unit
  tasksDelete : String → Option String
  taskRunsList : String → Except String (List String)
  taskRunsDelete : String → Option String

/-- The mutable state accumulated inside `deleteTask`'s loop: the `errs`
slice, the lines printed to `s.Err`, the two success slices, and the trace
of store calls issued so far. -/
structure St where
  errs : List String
  errLines : List String
  successfulTasks : List String
  successfulTaskRuns : List String
  calls : List StoreCall
deriving DecidableEq, Repr

def St.empty : St := ⟨[], [], [], [], []⟩

/-- The `addPrintErr` closure of `deleteTask`: append the error to `errs`
and print one line to `s.Err`. -/
def St.addPrintErr (st : St) (e : String) : St :=
  { st with errs := st.errs ++ [e], errLines := st.errLines ++ [e] }

/-- Record one RPC in the call trace. -/
def St.logCall (st : St) (c : StoreCall) : St :=
  { st with calls := st.calls ++ [c] }

/-- Componentwise concatenation of two states (used to factor the loop). -/
def St.append (a b : St) : St :=
  ⟨a.errs ++ b.errs, a.errLines ++ b.errLines,
   a.successfulTasks ++ b.successfulTasks,
   a.successfulTaskRuns ++ b.successfulTaskRuns, a.calls ++ b.calls⟩

/-- The label selector `fmt.Sprintf("tekton.dev/task=%s", tName)` used to
find the TaskRuns owned by a task. -/
def taskLabelSelector (tName : String) : String := "tekton.dev/task=" ++ tName

/-- The error `fmt.Errorf("failed to delete taskrun %q: %s", tr.Name, err)`
recorded for a failed TaskRun delete. -/
def taskRunErrLine (tr e : String) : String :=
  "failed to delete taskrun \"" ++ tr ++ "\": " ++ e

/-- The error `fmt.Errorf("failed to delete task %q: %s", tName, err)`
recorded for a failed Task delete. -/
def taskErrLine (n e : String) : String :=
  "failed to delete task \"" ++ n ++ "\": " ++ e

/-- The body of the inner loop of `deleteTask`: one TaskRun delete attempt
(`cs.Tekton.TektonV1alpha1().TaskRuns(ns).Delete(tr.Name, ...)`), recording
the failure or appending to `successfulTaskRuns`. -/
def processTaskRun (env : Env) (st : St) (tr : String) : St :=
  let st1 := st.logCall (.deleteTaskRun tr)
  match env.taskRunsDelete tr with
  | some e => st1.addPrintErr (taskRunErrLine tr e)
  | none => { st1 with successfulTaskRuns := st1.successfulTaskRuns ++ [tr] }

/-- The body of the outer loop of `deleteTask`, for one primary task name:
delete the task; on failure record and continue; on success append to
`successfulTasks`; if `opts.DeleteAll`, list the owned TaskRuns (recording
a lookup failure verbatim) and run the inner loop over the items. -/
def processName (env : Env) (deleteAll : Bool) (st : St) (tName : String) : St :=
  let st1 := st.logCall (.deleteTask tName)
  match env.tasksDelete tName with
  | some e => st1.addPrintErr (taskErrLine tName e)
  | none =>
    let st2 := { st1 with successfulTasks := st1.successfulTasks ++ [tName] }
    if !deleteAll then st2
    else
      let st3 := st2.logCall (.listTaskRuns (taskLabelSelector tName))
      match env.taskRunsList (taskLabelSelector tName) with
      | .error e => st3.addPrintErr e
      | .ok items => items.foldl (processTaskRun env) st3

/-- The error value `deleteTask` returns: either the fixed client-creation
message, or the `multierr.Combine` of the accumulated errors. -/
inductive RetErr where
  | single (msg : String)
  | combined (errs : List String)
deriving DecidableEq, Repr

/-- Modelled from the spec: the helper `names.QuotedList` is not among the
sources; the spec says each success line lists the resource names in the
order they were recorded, comma-joined, each individually quoted. -/
def QuotedList (xs : List String) : String :=
  String.intercalate ", " (xs.map (fun x => "\x27" ++ x ++ "\x27"))

/-- The observable result of one `deleteTask` invocation: the returned
error (if any), the lines printed to `s.Out` and `s.Err`, the `errs`
slice, the two success slices, and the trace of store calls. -/
structure TaskDeleteResult where
  ret : Option RetErr
  outLines : List String
  errLines : List String
  errs : List String
  successfulTasks : List String
  successfulTaskRuns : List String
  calls : List StoreCall
deriving DecidableEq, Repr

/-- The embedding of `deleteTask(opts, s, p, tNames)`.  If `p.Clients()`
fails, return the fixed error with nothing attempted; otherwise run the
two-level loop, then print the two conditional success lines and return
`multierr.Combine(errs...)`. -/
def deleteTask (env : Env) (deleteAll : Bool) (tNames : List String) :
    TaskDeleteResult :=
  match env.clients with
  | .error _ => ⟨some (.single "failed to create tekton client"), [], [], [], [], [], []⟩
  | .ok _ =>
    let st := tNames.foldl (processName env deleteAll) St.empty
    let outRuns := if 0 < st.successfulTaskRuns.length then
        ["TaskRuns deleted: " ++ QuotedList st.successfulTaskRuns] else []
    let outTasks := if 0 < st.successfulTasks.length then
        ["Tasks deleted: " ++ QuotedList st.successfulTasks] else []
    ⟨if st.errs.isEmpty then none else some (.combined st.errs),
     outRuns ++ outTasks, st.errLines, st.errs,
     st.successfulTasks, st.successfulTaskRuns, st.calls⟩

/-- Whether the store, as configured by `env`, answers the given call
without an error. -/
def CallOk (env : Env) : StoreCall → Bool
  | .deleteTask n => (env.tasksDelete n).isNone
  | .listTaskRuns s =>
    match env.taskRunsList s with
    | .ok _ => true
    | .error _ => false
  | .deleteTaskRun n => (env.taskRunsDelete n).isNone

/-- The sequence of store calls that processing one primary name issues
(derived description of `processName`, used to state trace lemmas). -/
def nameCalls (env : Env) (da : Bool) (n : String) : List StoreCall :=
  match env.tasksDelete n with
  | some _ => [.deleteTask n]
  | none =>
    if !da then [.deleteTask n]
    else
      match env.taskRunsList (taskLabelSelector n) with
      | .error _ => [.deleteTask n, .listTaskRuns (taskLabelSelector n)]
      | .ok items =>
        .deleteTask n :: .listTaskRuns (taskLabelSelector n)
          :: items.map .deleteTaskRun

/-- A store in which every call succeeds and no task owns any TaskRun. -/
def envOk : Env :=
  { clients := .ok ()
    tasksDelete := fun _ => none
    taskRunsList := fun _ => .ok []
    taskRunsDelete := fun _ => none }

/-- A store in which deleting task `a` fails with `boom` and everything
else succeeds. -/
def envMix : Env :=
  { clients := .ok ()
    tasksDelete := fun n => if n = "a" then some "boom" else none
    taskRunsList := fun _ => .ok []
    taskRunsDelete := fun _ => none }

/-- A store in which every delete succeeds but listing TaskRuns fails
with `boom`. -/
def envLookupFail : Env :=
  { clients := .ok ()
    tasksDelete := fun _ => none
    taskRunsList := fun _ => .error "boom"
    taskRunsDelete := fun _ => none }

/-- A store in which every delete call fails with `boom`. -/
def envAllFail : Env :=
  { clients := .ok ()
    tasksDelete := fun _ => some "boom"
    taskRunsList := fun _ => .ok []
    taskRunsDelete := fun _ => some "boom" }

/-- A store for which `p.Clients()` itself fails. -/
def envClientsFail : Env :=
  { clients := .error "underlying cause"
    tasksDelete := fun _ => none
    taskRunsList := fun _ => .ok []
    taskRunsDelete := fun _ => none }

/-- A second store for which `p.Clients()` fails, with a different cause. -/
def envClientsFail2 : Env :=
  { clients := .error "another cause"
    tasksDelete := fun _ => some "never reached"
    taskRunsList := fun _ => .error "never reached"
    taskRunsDelete := fun _ => some "never reached" }

/-- `pat` occurs as a contiguous run at the start of `s`. -/
def charsStartWith : List Char → List Char → Bool
  | [], _ => true
  | _ :: _, [] => false
  | a :: as, b :: bs => a = b && charsStartWith as bs

/-- `pat` occurs as a contiguous run somewhere in `s` (used to formalise
"the message references the name"). -/
def charsContain (pat : List Char) : List Char → Bool
  | [] => pat.isEmpty
  | s :: rest => charsStartWith pat (s :: rest) || charsContain pat rest

section Lemmas

variable (env : Env)

lemma St.empty_calls : St.empty.calls = [] := rfl

lemma St.empty_errs : St.empty.errs = [] := rfl

lemma St.empty_errLines : St.empty.errLines = [] := rfl

lemma St.empty_successfulTasks : St.empty.successfulTasks = [] := rfl

lemma St.empty_successfulTaskRuns : St.empty.successfulTaskRuns = [] := rfl

lemma St.append_empty (a : St) : a.append St.empty = a := by
  cases a; simp [St.append, St.empty]

lemma St.empty_append (a : St) : St.empty.append a = a := by
  cases a; simp [St.append, St.empty]

lemma St.append_assoc (a b c : St) :
    (a.append b).append c = a.append (b.append c) := by
  cases a; cases b; cases c; simp [St.append]

lemma processTaskRun_frame (st : St) (tr : String) :
    processTaskRun env st tr = st.append (processTaskRun env St.empty tr) := by
  cases h : env.taskRunsDelete tr <;>
    simp [processTaskRun, St.logCall, St.addPrintErr, St.append, St.empty, h]

/-- Any loop body that only appends to the state gives a foldl that only
appends to the state. -/
lemma foldl_frame (step : St → String → St)
    (hstep : ∀ st x, step st x = st.append (step St.empty x)) :
    ∀ (xs : List String) (st : St),
      xs.foldl step st = st.append (xs.foldl step St.empty) := by
  intro xs
  induction xs with
  | nil => intro st; simp [St.append_empty]
  | cons x xs ih =>
    intro st
    simp only [List.foldl_cons]
    rw [ih (step st x), ih (step St.empty x), hstep st x, St.append_assoc]

lemma foldl_processTaskRun_append (items : List String) (a b : St) :
    items.foldl (processTaskRun env) (a.append b)
      = a.append (items.foldl (processTaskRun env) b) := by
  rw [foldl_frame (processTaskRun env) (processTaskRun_frame env) items (a.append b),
    foldl_frame (processTaskRun env) (processTaskRun_frame env) items b,
    St.append_assoc]

lemma foldl_processTaskRun_congr (items : List String) (st X Y : St)
    (h : X = st.append Y) :
    items.foldl (processTaskRun env) X
      = st.append (items.foldl (processTaskRun env) Y) := by
  subst h; exact foldl_processTaskRun_append env items st Y

lemma processName_frame (da : Bool) (st : St) (n : String) :
    processName env da st n = st.append (processName env da St.empty n) := by
  cases h : env.tasksDelete n with
  | some e =>
    simp [processName, St.logCall, St.addPrintErr, St.append, St.empty, h]
  | none =>
    cases da with
    | false =>
      simp [processName, St.logCall, St.append, St.empty, h]
    | true =>
      cases hl : env.taskRunsList (taskLabelSelector n) with
      | error e =>
        simp [processName, St.logCall, St.addPrintErr, St.append, St.empty, h, hl]
      | ok items =>
        simp only [processName, h, hl, Bool.not_true, Bool.false_eq_true, if_false]
        apply foldl_processTaskRun_congr
        simp [St.logCall, St.append, St.empty]

lemma foldl_tr_calls : ∀ (trs : List String) (st : St),
    (trs.foldl (processTaskRun env) st).calls
      = st.calls ++ trs.map StoreCall.deleteTaskRun := by
  intro trs
  induction trs with
  | nil => intro st; simp
  | cons tr trs ih =>
    intro st
    simp only [List.foldl_cons, List.map_cons, ih]
    cases h : env.taskRunsDelete tr <;>
      simp [processTaskRun, h, St.logCall, St.addPrintErr, List.append_assoc]

lemma foldl_tr_successfulTasks : ∀ (trs : List String) (st : St),
    (trs.foldl (processTaskRun env) st).successfulTasks = st.successfulTasks := by
  intro trs
  induction trs with
  | nil => intro st; rfl
  | cons tr trs ih =>
    intro st
    simp only [List.foldl_cons, ih]
    cases h : env.taskRunsDelete tr <;>
      simp [processTaskRun, h, St.logCall, St.addPrintErr]

lemma foldl_tr_successfulTaskRuns : ∀ (trs : List String) (st : St),
    (trs.foldl (processTaskRun env) st).successfulTaskRuns
      = st.successfulTaskRuns
          ++ trs.filter (fun tr => (env.taskRunsDelete tr).isNone) := by
  intro trs
  induction trs with
  | nil => intro st; simp
  | cons tr trs ih =>
    intro st
    simp only [List.foldl_cons, ih]
    cases h : env.taskRunsDelete tr <;>
      simp [processTaskRun, h, St.logCall, St.addPrintErr, List.filter_cons,
        List.append_assoc]

lemma foldl_tr_errs : ∀ (trs : List String) (st : St),
    (trs.foldl (processTaskRun env) st).errs
      = st.errs
          ++ (trs.filter (fun tr => (env.taskRunsDelete tr).isSome)).map
              (fun tr => taskRunErrLine tr ((env.taskRunsDelete tr).getD "")) := by
  intro trs
  induction trs with
  | nil => intro st; simp
  | cons tr trs ih =>
    intro st
    simp only [List.foldl_cons, ih]
    cases h : env.taskRunsDelete tr <;>
      simp [processTaskRun, h, St.logCall, St.addPrintErr, List.filter_cons,
        taskRunErrLine, List.append_assoc]

lemma foldl_tr_errLines : ∀ (trs : List String) (st : St),
    (trs.foldl (processTaskRun env) st).errLines
      = st.errLines
          ++ (trs.filter (fun tr => (env.taskRunsDelete tr).isSome)).map
              (fun tr => taskRunErrLine tr ((env.taskRunsDelete tr).getD "")) := by
  intro trs
  induction trs with
  | nil => intro st; simp
  | cons tr trs ih =>
    intro st
    simp only [List.foldl_cons, ih]
    cases h : env.taskRunsDelete tr <;>
      simp [processTaskRun, h, St.logCall, St.addPrintErr, List.filter_cons,
        taskRunErrLine, List.append_assoc]

lemma foldl_false_calls : ∀ (ns : List String) (st : St),
    (ns.foldl (processName env false) st).calls
      = st.calls ++ ns.map StoreCall.deleteTask := by
  intro ns
  induction ns with
  | nil => intro st; simp
  | cons n ns ih =>
    intro st
    simp only [List.foldl_cons, List.map_cons, ih]
    cases h : env.tasksDelete n <;>
      simp [processName, h, St.logCall, St.addPrintErr, List.append_assoc]

lemma foldl_false_successfulTasks : ∀ (ns : List String) (st : St),
    (ns.foldl (processName env false) st).successfulTasks
      = st.successfulTasks
          ++ ns.filter (fun n => (env.tasksDelete n).isNone) := by
  intro ns
  induction ns with
  | nil => intro st; simp
  | cons n ns ih =>
    intro st
    simp only [List.foldl_cons, ih]
    cases h : env.tasksDelete n <;>
      simp [processName, h, St.logCall, St.addPrintErr, List.filter_cons,
        List.append_assoc]

lemma foldl_false_successfulTaskRuns : ∀ (ns : List String) (st : St),
    (ns.foldl (processName env false) st).successfulTaskRuns
      = st.successfulTaskRuns := by
  intro ns
  induction ns with
  | nil => intro st; rfl
  | cons n ns ih =>
    intro st
    simp only [List.foldl_cons, ih]
    cases h : env.tasksDelete n <;>
      simp [processName, h, St.logCall, St.addPrintErr]

lemma foldl_false_errs : ∀ (ns : List String) (st : St),
    (ns.foldl (processName env false) st).errs
      = st.errs
          ++ (ns.filter (fun n => (env.tasksDelete n).isSome)).map
              (fun n => taskErrLine n ((env.tasksDelete n).getD "")) := by
  intro ns
  induction ns with
  | nil => intro st; simp
  | cons n ns ih =>
    intro st
    simp only [List.foldl_cons, ih]
    cases h : env.tasksDelete n <;>
      simp [processName, h, St.logCall, St.addPrintErr, List.filter_cons,
        taskErrLine, List.append_assoc]

lemma foldl_false_errLines : ∀ (ns : List String) (st : St),
    (ns.foldl (processName env false) st).errLines
      = st.errLines
          ++ (ns.filter (fun n => (env.tasksDelete n).isSome)).map
              (fun n => taskErrLine n ((env.tasksDelete n).getD "")) := by
  intro ns
  induction ns with
  | nil => intro st; simp
  | cons n ns ih =>
    intro st
    simp only [List.foldl_cons, ih]
    cases h : env.tasksDelete n <;>
      simp [processName, h, St.logCall, St.addPrintErr, List.filter_cons,
        taskErrLine, List.append_assoc]

lemma errLines_eq_errs_processName (da : Bool) (st : St) (n : String)
    (h : st.errLines = st.errs) :
    (processName env da st n).errLines = (processName env da st n).errs := by
  cases hd : env.tasksDelete n with
  | some e => simp [processName, hd, St.logCall, St.addPrintErr, h]
  | none =>
    cases da with
    | false => simp [processName, hd, St.logCall, h]
    | true =>
      cases hl : env.taskRunsList (taskLabelSelector n) with
      | error e => simp [processName, hd, hl, St.logCall, St.addPrintErr, h]
      | ok items =>
        simp only [processName, hd, hl, Bool.not_true, Bool.false_eq_true, if_false]
        rw [foldl_tr_errs, foldl_tr_errLines]
        simp [St.logCall, h]

lemma errLines_eq_errs_foldl (da : Bool) : ∀ (ns : List String) (st : St),
    st.errLines = st.errs →
      (ns.foldl (processName env da) st).errLines
        = (ns.foldl (processName env da) st).errs := by
  intro ns
  induction ns with
  | nil => intro st h; exact h
  | cons n ns ih =>
    intro st h
    rw [List.foldl_cons]
    exact ih _ (errLines_eq_errs_processName env da st n h)

lemma mem_successfulTasks_processName (da : Bool) (st : St) (x n : String) :
    x ∈ (processName env da st n).successfulTasks ↔
      x ∈ st.successfulTasks ∨ (x = n ∧ env.tasksDelete n = none) := by
  cases hd : env.tasksDelete n with
  | some e => simp [processName, hd, St.logCall, St.addPrintErr]
  | none =>
    cases da with
    | false => simp [processName, hd, St.logCall]
    | true =>
      cases hl : env.taskRunsList (taskLabelSelector n) with
      | error e => simp [processName, hd, hl, St.logCall, St.addPrintErr]
      | ok items =>
        simp only [processName, hd, hl, Bool.not_true, Bool.false_eq_true, if_false]
        rw [foldl_tr_successfulTasks]
        simp [St.logCall]

lemma mem_successfulTasks_foldl (da : Bool) : ∀ (ns : List String) (st : St)
    (x : String),
    x ∈ (ns.foldl (processName env da) st).successfulTasks ↔
      x ∈ st.successfulTasks ∨ (x ∈ ns ∧ env.tasksDelete x = none) := by
  intro ns
  induction ns with
  | nil => intro st x; simp
  | cons n ns ih =>
    intro st x
    rw [List.foldl_cons, ih, mem_successfulTasks_processName]
    simp only [List.mem_cons]
    constructor
    · rintro ((hx | ⟨rfl, hdel⟩) | ⟨hx, hdel⟩)
      · exact Or.inl hx
      · exact Or.inr ⟨Or.inl rfl, hdel⟩
      · exact Or.inr ⟨Or.inr hx, hdel⟩
    · rintro (hx | ⟨rfl | hx, hdel⟩)
      · exact Or.inl (Or.inl hx)
      · exact Or.inl (Or.inr ⟨rfl, hdel⟩)
      · exact Or.inr ⟨hx, hdel⟩

lemma calls_processName (da : Bool) (st : St) (n : String) :
    (processName env da st n).calls = st.calls ++ nameCalls env da n := by
  cases hd : env.tasksDelete n with
  | some e => simp [processName, nameCalls, hd, St.logCall, St.addPrintErr]
  | none =>
    cases da with
    | false => simp [processName, nameCalls, hd, St.logCall]
    | true =>
      cases hl : env.taskRunsList (taskLabelSelector n) with
      | error e =>
        simp [processName, nameCalls, hd, hl, St.logCall, St.addPrintErr,
          List.append_assoc]
      | ok items =>
        simp only [processName, nameCalls, hd, hl, Bool.not_true, Bool.false_eq_true, if_false]
        rw [foldl_tr_calls]
        simp [St.logCall, List.append_assoc]

lemma calls_foldl (da : Bool) : ∀ (ns : List String) (st : St),
    (ns.foldl (processName env da) st).calls
      = st.calls ++ (ns.map (nameCalls env da)).flatten := by
  intro ns
  induction ns with
  | nil => intro st; simp
  | cons n ns ih =>
    intro st
    rw [List.foldl_cons, ih, calls_processName]
    simp [List.append_assoc]

lemma mem_nameCalls_list (da : Bool) (n s : String)
    (h : StoreCall.listTaskRuns s ∈ nameCalls env da n) :
    s = taskLabelSelector n ∧ env.tasksDelete n = none ∧ da = true := by
  cases hd : env.tasksDelete n with
  | some e => simp [nameCalls, hd] at h
  | none =>
    cases da with
    | false => simp [nameCalls, hd] at h
    | true =>
      cases hl : env.taskRunsList (taskLabelSelector n) with
      | error e =>
        simp only [nameCalls, hd, hl, Bool.not_true, Bool.false_eq_true, if_false] at h
        simp at h
        exact ⟨h, rfl, rfl⟩
      | ok items =>
        simp only [nameCalls, hd, hl, Bool.not_true, Bool.false_eq_true, if_false] at h
        simp at h
        exact ⟨h, rfl, rfl⟩

lemma mem_nameCalls_tr (da : Bool) (n tr : String)
    (h : StoreCall.deleteTaskRun tr ∈ nameCalls env da n) :
    env.tasksDelete n = none ∧
      ∃ items, env.taskRunsList (taskLabelSelector n) = .ok items
        ∧ tr ∈ items := by
  cases hd : env.tasksDelete n with
  | some e => simp [nameCalls, hd] at h
  | none =>
    cases da with
    | false => simp [nameCalls, hd] at h
    | true =>
      cases hl : env.taskRunsList (taskLabelSelector n) with
      | error e =>
        simp only [nameCalls, hd, hl, Bool.not_true, Bool.false_eq_true, if_false] at h
        simp at h
      | ok items =>
        simp only [nameCalls, hd, hl, Bool.not_true, Bool.false_eq_true, if_false] at h
        simp at h
        exact ⟨rfl, items, rfl, h⟩

lemma foldl_processName_cons (da : Bool) (n : String) (ns : List String) :
    (n :: ns).foldl (processName env da) St.empty
      = (processName env da St.empty n).append
          (ns.foldl (processName env da) St.empty) := by
  rw [List.foldl_cons, foldl_frame (processName env da) (processName_frame env da) ns]

lemma processName_errs_nil_iff (da : Bool) (n : String) :
    (processName env da St.empty n).errs = [] ↔
      ∀ c ∈ nameCalls env da n, CallOk env c = true := by
  cases hd : env.tasksDelete n with
  | some e =>
    simp [processName, nameCalls, CallOk, hd, St.logCall, St.addPrintErr, St.empty]
  | none =>
    cases da with
    | false =>
      simp [processName, nameCalls, CallOk, hd, St.logCall, St.empty]
    | true =>
      cases hl : env.taskRunsList (taskLabelSelector n) with
      | error e =>
        simp [processName, nameCalls, CallOk, hd, hl, St.logCall,
          St.addPrintErr, St.empty]
      | ok items =>
        simp only [processName, nameCalls, hd, hl, Bool.not_true,
          Bool.false_eq_true, if_false]
        rw [foldl_tr_errs]
        simp [CallOk, hd, hl, St.logCall, St.empty, List.filter_eq_nil_iff,
          Option.isNone_iff_eq_none]

lemma errs_nil_iff_foldl (da : Bool) : ∀ ns : List String,
    (ns.foldl (processName env da) St.empty).errs = [] ↔
      ∀ c ∈ (ns.foldl (processName env da) St.empty).calls,
        CallOk env c = true := by
  intro ns
  induction ns with
  | nil => simp [St.empty]
  | cons n ns ih =>
    rw [foldl_processName_cons]
    simp only [St.append, List.append_eq_nil, List.mem_append, or_imp,
      forall_and]
    rw [calls_processName]
    simp only [St.empty_calls, List.nil_append]
    exact and_congr (processName_errs_nil_iff env da n) ih

lemma ite_length_pos (l A : List String) :
    (if 0 < l.length then A else []) = (if l = [] then [] else A) := by
  cases l <;> simp

end Lemmas

/-- C1: for every list of primary names processed without cascade, when the
store fails the delete for a strict non-empty subset of the names (those
with `tasksDelete n` a failure) and succeeds for the rest, `deleteTask`
records exactly as many failure entries as there are failing names, its
`successfulTasks` is the original list minus the failing names in the
original relative order, and every name is still attempted in order after
a failure (the call trace is one delete per requested name, no early
abort). -/
theorem claim_C1_partial_failure (env : Env) (ns : List String)
    (hc : env.clients = .ok ())
    (hS₁ : ns.filter (fun n => (env.tasksDelete n).isSome) ≠ [])
    (hS₂ : ns.filter (fun n => (env.tasksDelete n).isSome) ≠ ns) :
    (deleteTask env false ns).errs.length
        = (ns.filter (fun n => (env.tasksDelete n).isSome)).length
      ∧ (deleteTask env false ns).successfulTasks
          = ns.filter (fun n => (env.tasksDelete n).isNone)
      ∧ (deleteTask env false ns).calls = ns.map StoreCall.deleteTask := by
  simp only [deleteTask, hc]
  refine ⟨?_, ?_, ?_⟩
  · rw [foldl_false_errs]
    simp [St.empty_errs]
  · rw [foldl_false_successfulTasks]
    simp [St.empty_successfulTasks]
  · rw [foldl_false_calls]
    simp [St.empty_calls]

/-- C1 witness: in `envMix` the delete of `a` fails and the delete of `b`
succeeds; the failing names are a strict non-empty subset and the theorem
applies. -/
theorem claim_C1_witness :
    envMix.clients = .ok ()
    ∧ (["a", "b"].filter (fun n => (envMix.tasksDelete n).isSome)) ≠ []
    ∧ (["a", "b"].filter (fun n => (envMix.tasksDelete n).isSome)) ≠ ["a", "b"]
    ∧ ((deleteTask envMix false ["a", "b"]).errs.length
          = (["a", "b"].filter (fun n => (envMix.tasksDelete n).isSome)).length
        ∧ (deleteTask envMix false ["a", "b"]).successfulTasks
            = ["a", "b"].filter (fun n => (envMix.tasksDelete n).isNone)
        ∧ (deleteTask envMix false ["a", "b"]).calls
            = ["a", "b"].map StoreCall.deleteTask) :=
  ⟨rfl, by decide, by decide,
    claim_C1_partial_failure envMix ["a", "b"] rfl (by decide) (by decide)⟩

/-- C2: when the client handle is obtained, the error `deleteTask` returns
is nil exactly when no failure was recorded, and no failure is recorded
exactly when every store call it issued succeeded. -/
theorem claim_C2_combined_error (env : Env) (da : Bool) (ns : List String)
    (hc : env.clients = .ok ()) :
    ((deleteTask env da ns).ret = none ↔ (deleteTask env da ns).errs = [])
    ∧ ((deleteTask env da ns).errs = [] ↔
        ∀ c ∈ (deleteTask env da ns).calls, CallOk env c = true) := by
  simp only [deleteTask, hc]
  constructor
  · cases h : (ns.foldl (processName env da) St.empty).errs <;> simp [h]
  · exact errs_nil_iff_foldl env da ns

/-- C2 witness: a batch over `envOk` with cascade. -/
theorem claim_C2_witness :
    envOk.clients = .ok ()
    ∧ (((deleteTask envOk true ["a"]).ret = none ↔
          (deleteTask envOk true ["a"]).errs = [])
        ∧ ((deleteTask envOk true ["a"]).errs = [] ↔
            ∀ c ∈ (deleteTask envOk true ["a"]).calls,
              CallOk envOk c = true)) :=
  ⟨rfl, claim_C2_combined_error envOk true ["a"] rfl⟩

/-- C3: dependents are only looked up / deleted for a primary whose own
delete succeeded — every TaskRuns List call in the trace carries the label
selector of a requested name whose delete succeeded, every TaskRun delete
in the trace came from a successful List for such a name — and a primary
whose own delete succeeded stays in `successfulTasks` no matter what the
dependent lookup did. -/
theorem claim_C3_cascade_conditioned (env : Env) (da : Bool)
    (ns : List String) (hc : env.clients = .ok ()) :
    (∀ s, StoreCall.listTaskRuns s ∈ (deleteTask env da ns).calls →
        ∃ n ∈ ns, s = taskLabelSelector n ∧ env.tasksDelete n = none)
    ∧ (∀ tr, StoreCall.deleteTaskRun tr ∈ (deleteTask env da ns).calls →
        ∃ n ∈ ns, env.tasksDelete n = none
          ∧ ∃ items, env.taskRunsList (taskLabelSelector n) = .ok items
              ∧ tr ∈ items)
    ∧ (∀ n ∈ ns, env.tasksDelete n = none →
        n ∈ (deleteTask env da ns).successfulTasks) := by
  simp only [deleteTask, hc]
  refine ⟨?_, ?_, ?_⟩
  · intro s hmem
    rw [calls_foldl] at hmem
    simp only [St.empty_calls, List.nil_append, List.mem_flatten,
      List.mem_map] at hmem
    obtain ⟨l, ⟨n, hn, rfl⟩, hcl⟩ := hmem
    obtain ⟨hs, hdel, -⟩ := mem_nameCalls_list env da n s hcl
    exact ⟨n, hn, hs, hdel⟩
  · intro tr hmem
    rw [calls_foldl] at hmem
    simp only [St.empty_calls, List.nil_append, List.mem_flatten,
      List.mem_map] at hmem
    obtain ⟨l, ⟨n, hn, rfl⟩, hcl⟩ := hmem
    obtain ⟨hdel, items, hitems, htr⟩ := mem_nameCalls_tr env da n tr hcl
    exact ⟨n, hn, hdel, items, hitems, htr⟩
  · intro n hn hdel
    rw [mem_successfulTasks_foldl]
    exact Or.inr ⟨hn, hdel⟩

/-- C3 witness: in `envOk` the delete of `a` succeeds, so `a` is recorded
in `successfulTasks` of a cascading batch. -/
theorem claim_C3_witness :
    "a" ∈ (deleteTask envOk true ["a"]).successfulTasks :=
  (claim_C3_cascade_conditioned envOk true ["a"] rfl).2.2 "a" (by decide) rfl

/-- C4: with cascade (`DeleteAll`) false, no TaskRuns List call is ever
issued, whatever the store contains and whether or not any delete
succeeds. -/
theorem claim_C4_no_list_without_cascade (env : Env) (ns : List String)
    (s : String) :
    StoreCall.listTaskRuns s ∉ (deleteTask env false ns).calls := by
  cases hc : env.clients with
  | error e => simp [deleteTask, hc]
  | ok u =>
    cases u
    simp only [deleteTask, hc]
    rw [foldl_false_calls]
    simp [St.empty_calls]

/-- C4 witness: the theorem applied at a concrete store and batch. -/
theorem claim_C4_witness :
    StoreCall.listTaskRuns "tekton.dev/task=a"
      ∉ (deleteTask envOk false ["a", "b"]).calls :=
  claim_C4_no_list_without_cascade envOk ["a", "b"] "tekton.dev/task=a"

/-- C5 counterexample: in `envLookupFail` the delete of `foo` succeeds and
the dependent lookup fails with `boom`; exactly one failure entry is
recorded, but it is the raw lookup error `boom`, a message in which the
name `foo` does not occur — so it is not "a message attributing the lookup
failure to that primary" as the claim states. -/
theorem claim_C5_counterexample :
    (deleteTask envLookupFail true ["foo"]).successfulTasks = ["foo"]
    ∧ (deleteTask envLookupFail true ["foo"]).errs = ["boom"]
    ∧ charsContain "foo".toList "boom".toList = false := by decide

/-- C5 (amended): for every primary whose own delete succeeded but whose
dependent lookup failed, the name is still appended to `successfulTasks`
and exactly one additional failure entry is recorded — holding the
underlying lookup error verbatim, not a message referencing the primary. -/
theorem claim_C5_lookup_failure_amended (env : Env) (n e : String) (st : St)
    (hd : env.tasksDelete n = none)
    (hl : env.taskRunsList (taskLabelSelector n) = .error e) :
    processName env true st n
      = { st with
          errs := st.errs ++ [e],
          errLines := st.errLines ++ [e],
          successfulTasks := st.successfulTasks ++ [n],
          calls := st.calls
            ++ [.deleteTask n, .listTaskRuns (taskLabelSelector n)] } := by
  simp [processName, hd, hl, St.logCall, St.addPrintErr, List.append_assoc]

/-- C5 witness: the amended statement applied in `envLookupFail` at the
primary `foo`, from the empty loop state. -/
theorem claim_C5_witness :
    envLookupFail.tasksDelete "foo" = none
    ∧ envLookupFail.taskRunsList (taskLabelSelector "foo") = .error "boom"
    ∧ processName envLookupFail true St.empty "foo"
        = { St.empty with
            errs := St.empty.errs ++ ["boom"],
            errLines := St.empty.errLines ++ ["boom"],
            successfulTasks := St.empty.successfulTasks ++ ["foo"],
            calls := St.empty.calls
              ++ [.deleteTask "foo",
                  .listTaskRuns (taskLabelSelector "foo")] } :=
  ⟨rfl, rfl,
    claim_C5_lookup_failure_amended envLookupFail "foo" "boom" St.empty rfl rfl⟩

/-- C6: the report is the concatenation of at most two success lines in a
fixed order — the TaskRuns line first when any dependent succeeded, then
the Tasks line when any primary succeeded, each listing the recorded names
comma-joined and individually quoted via `QuotedList`; an empty category
produces no line. -/
theorem claim_C6_report_lines (env : Env) (da : Bool) (ns : List String) :
    (deleteTask env da ns).outLines
      = (if (deleteTask env da ns).successfulTaskRuns = [] then []
          else ["TaskRuns deleted: "
            ++ QuotedList (deleteTask env da ns).successfulTaskRuns])
        ++ (if (deleteTask env da ns).successfulTasks = [] then []
          else ["Tasks deleted: "
            ++ QuotedList (deleteTask env da ns).successfulTasks]) := by
  cases hc : env.clients with
  | error e => simp [deleteTask, hc]
  | ok u =>
    cases u
    simp only [deleteTask, hc]
    rw [ite_length_pos, ite_length_pos]

/-- C7 counterexample: in `envLookupFail` the failed dependent lookup for
`foo` is a recorded failure whose stderr line is the raw error `boom`,
which does not even begin with `failed to delete ` — so not every failure
line has the form `failed to delete <kind> "<name>": <cause>`. -/
theorem claim_C7_counterexample :
    (deleteTask envLookupFail true ["foo"]).errLines = ["boom"]
    ∧ charsStartWith "failed to delete ".toList "boom".toList = false := by
  decide

/-- C7 (amended): every recorded failure produces exactly one stderr line
and the lines appear in the order the failures occurred (the printed lines
are exactly the recorded errors); every failed Task delete and every
failed TaskRun delete contributes a line of the form
`failed to delete <kind> "<name>": <cause>`; only a failed dependent
lookup contributes its underlying error verbatim instead. -/
theorem claim_C7_error_lines_amended (env : Env) (da : Bool)
    (ns : List String) (st : St) (n tr e f : String) :
    ((deleteTask env da ns).errLines = (deleteTask env da ns).errs)
    ∧ (env.tasksDelete n = some e →
        processName env da st n
          = (st.logCall (.deleteTask n)).addPrintErr (taskErrLine n e))
    ∧ (env.taskRunsDelete tr = some f →
        processTaskRun env st tr
          = (st.logCall (.deleteTaskRun tr)).addPrintErr (taskRunErrLine tr f)) := by
  refine ⟨?_, ?_, ?_⟩
  · cases hc : env.clients with
    | error c => simp [deleteTask, hc]
    | ok u =>
      cases u
      simp only [deleteTask, hc]
      exact errLines_eq_errs_foldl env da ns St.empty rfl
  · intro h
    simp [processName, h]
  · intro h
    simp [processTaskRun, h]

/-- C7 witness: in `envAllFail` both delete calls fail with `boom`; the
printed lines equal the recorded errors and both failing branches produce
the formatted line. -/
theorem claim_C7_witness :
    ((deleteTask envAllFail false ["a"]).errLines
        = (deleteTask envAllFail false ["a"]).errs)
    ∧ processName envAllFail false St.empty "a"
        = (St.empty.logCall (.deleteTask "a")).addPrintErr (taskErrLine "a" "boom")
    ∧ processTaskRun envAllFail St.empty "tr"
        = (St.empty.logCall (.deleteTaskRun "tr")).addPrintErr
            (taskRunErrLine "tr" "boom") :=
  ⟨(claim_C7_error_lines_amended envAllFail false ["a"] St.empty "a" "tr"
      "boom" "boom").1,
   (claim_C7_error_lines_amended envAllFail false ["a"] St.empty "a" "tr"
      "boom" "boom").2.1 rfl,
   (claim_C7_error_lines_amended envAllFail false ["a"] St.empty "a" "tr"
      "boom" "boom").2.2 rfl⟩

/-- C8: when `p.Clients()` fails, `deleteTask` aborts at once with the
fixed error: no store call is issued, no outcome is recorded, and no
success or failure line is printed. -/
theorem claim_C8_clients_failure_aborts (env : Env) (da : Bool)
    (ns : List String) (c : String) (hc : env.clients = .error c) :
    deleteTask env da ns
      = ⟨some (.single "failed to create tekton client"),
         [], [], [], [], [], []⟩ := by
  simp [deleteTask, hc]

/-- C8 witness: the theorem at `envClientsFail` on a non-empty batch. -/
theorem claim_C8_witness :
    envClientsFail.clients = .error "underlying cause"
    ∧ deleteTask envClientsFail true ["a", "b"]
        = ⟨some (.single "failed to create tekton client"),
           [], [], [], [], [], []⟩ :=
  ⟨rfl, claim_C8_clients_failure_aborts envClientsFail true ["a", "b"]
    "underlying cause" rfl⟩

/-- C9: when obtaining the client handle fails, the error returned is the
fixed message `failed to create tekton client`, and the result is the same
whatever the underlying cause was — the cause returned by `p.Clients()` is
discarded and never surfaced. -/
theorem claim_C9_cause_discarded (env env₂ : Env) (da : Bool)
    (ns : List String) (c c₂ : String)
    (hc : env.clients = .error c) (hc₂ : env₂.clients = .error c₂) :
    (deleteTask env da ns).ret
        = some (.single "failed to create tekton client")
    ∧ deleteTask env da ns = deleteTask env₂ da ns := by
  simp [deleteTask, hc, hc₂]

/-- C9 witness: two stores whose `p.Clients()` fail with different causes
give the identical fixed result. -/
theorem claim_C9_witness :
    envClientsFail.clients = .error "underlying cause"
    ∧ envClientsFail2.clients = .error "another cause"
    ∧ ((deleteTask envClientsFail false ["a"]).ret
          = some (.single "failed to create tekton client")
        ∧ deleteTask envClientsFail false ["a"]
            = deleteTask envClientsFail2 false ["a"]) :=
  ⟨rfl, rfl, claim_C9_cause_discarded envClientsFail envClientsFail2 false
    ["a"] "underlying cause" "another cause" rfl rfl⟩

/-- C10: for the empty list of primary names (with the client handle
obtainable), `deleteTask` issues no store call, prints no line, records no
outcome and returns nil — the empty batch is vacuously successful. -/
theorem claim_C10_empty_batch (env : Env) (da : Bool)
    (hc : env.clients = .ok ()) :
    deleteTask env da [] = ⟨none, [], [], [], [], [], []⟩ := by
  simp [deleteTask, hc, St.empty]

/-- C10 witness: the theorem at `envOk`. -/
theorem claim_C10_witness :
    envOk.clients = .ok ()
    ∧ deleteTask envOk false [] = ⟨none, [], [], [], [], [], []⟩ :=
  ⟨rfl, claim_C10_empty_batch envOk false rfl⟩

end TknTaskDelete
